import Mathlib

/-!
Verification of the presence subsystem of the emitter message broker.

The embedding models the presence service handlers (`Notify`, `OnPresence`,
`OnHTTPPresence`) as pure functions. External collaborators declared in
`internal/service/service.go` (the authorizer, the channel parser, the local
and cluster presence store and JSON marshalling of the response) are fields of
a `Service` record, mirroring the fields and package functions the Go code
calls. Calls to the pub/sub bus (`Subscribe`, `Unsubscribe`) and the
scatter-gather aggregation are recorded as an explicit effect trace.
-/

namespace Emitter

/-- Channel type tag of a parsed channel (`security.ChannelType`):
static, wildcard, or invalid. -/
inductive ChannelType where
  | invalid
  | chanStatic
  | wildcard
deriving DecidableEq, Repr

/-- Structured form of a topic string (`security.Channel`): type tag, ordered
segment identifiers (`Query`), and the channel text (`Channel`). -/
structure Channel where
  channelType : ChannelType
  query : List Nat
  channel : String
deriving DecidableEq, Repr

/-- Modelled from the spec: `security.Key` is not among the provided source
files. Per the spec's data model, a credential is bound to a contract (tenant)
and a permission bitmask; we model the bitmask as the list of granted
permission bits. -/
structure Key where
  contract : Nat
  perms : List Nat
deriving DecidableEq, Repr

/-- Modelled from the spec: the `security.AllowPresence` permission constant. -/
def AllowPresence : Nat := 16

/-- Modelled from the spec: the `security.AllowExtend` permission constant. -/
def AllowExtend : Nat := 32

/-- Modelled from the spec: `Key.HasPermission` tests a bit of the permission
bitmask, i.e. membership of the granted-permission set. -/
def Key.hasPermission (k : Key) (p : Nat) : Bool := decide (p ∈ k.perms)

/-- Modelled from the spec: `message.Ssid` — a fixed-shape tuple of contract
identifier and channel segment hashes (`message.NewSsid(contract, query)`). -/
structure Ssid where
  contract : Nat
  query : List Nat
deriving DecidableEq, Repr

/-- Modelled from the spec: `message.NewSsid` builds the canonical SSID from
the contract identifier and the channel's segment list. -/
def NewSsid (contract : Nat) (query : List Nat) : Ssid := ⟨contract, query⟩

/-- Modelled from the spec: the presence-class variant of an SSID
(`message.NewSsidForPresence`) tags it as a presence-watch subscription set,
distinguishable from the plain SSID. -/
structure PresenceSsid where
  base : Ssid
deriving DecidableEq, Repr

/-- Modelled from the spec: `message.NewSsidForPresence`. -/
def NewSsidForPresence (s : Ssid) : PresenceSsid := ⟨s⟩

/-- A connection (`service.Conn`), exposing `LocalID()` and `Username()`. -/
structure Conn where
  localId : Nat
  username : String
deriving DecidableEq, Repr

/-- A subscription event (`event.Subscription`) with the fields set by
`OnPresence`: connection identity, username, presence-class SSID, channel. -/
structure Subscription where
  conn : Nat
  user : String
  ssid : PresenceSsid
  channel : String
deriving DecidableEq, Repr

/-- One discovered subscriber (`presence.Info`): connection identifier,
username, node-origin tag. -/
structure Info where
  id : Nat
  username : String
  origin : String
deriving DecidableEq, Repr

/-- A decoded presence request (`presence.Request`): key, channel text,
want-status flag, optional want-changes flag. -/
structure Request where
  key : String
  channel : String
  status : Bool
  changes : Option Bool
deriving DecidableEq, Repr

/-- The fields present in the JSON body of a request. `json.Unmarshal` leaves
a field of the pre-initialized `Request` untouched when the JSON omits it, so
each field is optional here and merged over the initial value. -/
structure RawRequest where
  key : Option String
  channel : Option String
  status : Option Bool
  changes : Option (Option Bool)
deriving DecidableEq, Repr

/-- `json.Unmarshal(payload, &msg)` on a pre-initialized `msg`: every field
present in the JSON overwrites the initial value, absent fields keep it. -/
def unmarshalRequest (init : Request) (raw : RawRequest) : Request :=
  { key := raw.key.getD init.key
    channel := raw.channel.getD init.channel
    status := raw.status.getD init.status
    changes := raw.changes.getD init.changes }

/-- The pre-initialized request of the in-protocol path
(`Request{Status: true, Changes: nil}`): status defaults to true, changes to
unset. -/
def presenceRequestDefaults : Request :=
  { key := "", channel := "", status := true, changes := none }

/-- The pre-initialized request of the HTTP path (`Request{}`): the Go zero
value, status false, changes unset. -/
def httpRequestDefaults : Request :=
  { key := "", channel := "", status := false, changes := none }

/-- The event kind constant for a status response (`EventTypeStatus`). -/
def EventTypeStatus : String := "status"

/-- A presence status response (`presence.Response`): UTC-seconds timestamp,
event kind, channel text, subscriber list. -/
structure Response where
  time : Int
  event : String
  channel : String
  who : List Info
deriving DecidableEq, Repr

/-- A presence notification event (`presence.Notification`). -/
structure Notification where
  event : String
  ssid : Ssid
  channel : String
  conn : Nat
  user : String
deriving DecidableEq, Repr

/-- A published message (`message.New(ssid, channel, payload)`). -/
structure Message where
  ssid : Ssid
  channel : String
  payload : String
deriving DecidableEq, Repr

/-- One call to the pub/sub bus `Publish`, carrying the message and the
caller-supplied recipient filter (subscribers modelled as `Nat`). -/
structure PubEffect where
  msg : Message
  filter : Nat → Bool

/-- Observable side effects of a presence request: a `Subscribe` or
`Unsubscribe` call on the pub/sub bus, or a scatter-gather presence
aggregation (`getAllPresence`). -/
inductive Effect where
  | subscribe (c : Conn) (ev : Subscription)
  | unsubscribe (c : Conn) (ev : Subscription)
  | gather (ssid : Ssid)
deriving DecidableEq, Repr

/-- `true` exactly on the bus subscription-changing effects. -/
def Effect.isSubEvent : Effect → Bool
  | .subscribe _ _ => true
  | .unsubscribe _ _ => true
  | .gather _ => false

/-- The external collaborators of the presence service: the channel parser
(`security.ParseChannel`), the authorizer (`s.auth.Authorize`), the combined
local-plus-cluster presence lookup (`s.getAllPresence`), JSON marshalling of
the response (`json.Marshal`), and the current UTC-seconds clock
(`time.Now().UTC().Unix()`). -/
structure Service where
  parseChannel : String → Channel
  authorize : Channel → Nat → Nat × Key × Bool
  getAllPresence : Ssid → List Info
  marshalResponse : Response → Option String
  now : Int

/-- `strings.HasSuffix(s, suffix)`, computed on the underlying character
lists. -/
def hasSuffix (s suffix : String) : Bool :=
  suffix.data.isSuffixOf s.data

/-- Appends a trailing slash when absent
(`if !strings.HasSuffix(ch, "/") { ch = ch + "/" }`). -/
def ensureTrailingSlash (s : String) : String :=
  if hasSuffix s "/" then s else s ++ "/"

/-- The outcome returned to the in-protocol caller: one of the protocol error
objects, a status `Response`, or no response object (nil). -/
inductive PresenceOut where
  | errBadRequest
  | errUnauthorized
  | errUnauthorizedExt
  | response (r : Response)
  | noResponse
deriving DecidableEq, Repr

/-- `true` exactly on the protocol error outcomes. -/
def PresenceOut.isError : PresenceOut → Bool
  | .errBadRequest => true
  | .errUnauthorized => true
  | .errUnauthorizedExt => true
  | .response _ => false
  | .noResponse => false

/-- `OnPresence` processes an in-protocol presence request. The payload is the
result of JSON decoding: `none` models a decode error. Returns the
(response, bool) pair of the Go function together with the effect trace. -/
def OnPresence (s : Service) (c : Conn) (payload : Option RawRequest) :
    (PresenceOut × Bool) × List Effect :=
  match payload with
  | none => ((.errBadRequest, false), [])
  | some raw =>
    let msg0 := unmarshalRequest presenceRequestDefaults raw
    let msg := { msg0 with channel := ensureTrailingSlash msg0.channel }
    let channel := s.parseChannel (msg.key ++ "/" ++ msg.channel)
    if channel.channelType = .invalid then ((.errBadRequest, false), [])
    else
      let auth := s.authorize channel AllowPresence
      let key := auth.2.1
      let allowed := auth.2.2
      if !allowed then ((.errUnauthorized, false), [])
      else if key.hasPermission AllowExtend then ((.errUnauthorizedExt, false), [])
      else
        let ssid := NewSsid key.contract channel.query
        let evs :=
          match msg.changes with
          | none => []
          | some true =>
            [Effect.subscribe c ⟨c.localId, c.username, NewSsidForPresence ssid, channel.channel⟩]
          | some false =>
            [Effect.unsubscribe c ⟨c.localId, c.username, NewSsidForPresence ssid, channel.channel⟩]
        if msg.status then
          ((.response { time := s.now, event := EventTypeStatus, channel := msg.channel
                        who := s.getAllPresence ssid }, true),
            evs ++ [Effect.gather ssid])
        else
          ((.noResponse, true), evs)

/-- The HTTP reply: a bare status code via `WriteHeader`, or a written body
(which Go answers with an implicit 200). -/
inductive HttpOut where
  | code (status : Nat)
  | ok (body : String)
deriving DecidableEq, Repr

/-- The HTTP status code of a reply; a written body means 200. -/
def HttpOut.statusCode : HttpOut → Nat
  | .code n => n
  | .ok _ => 200

/-- `OnHTTPPresence` processes an HTTP presence request. The body is the
result of JSON decoding: `none` models a decode error. Returns the HTTP reply
together with the effect trace. -/
def OnHTTPPresence (s : Service) (method : String) (body : Option RawRequest) :
    HttpOut × List Effect :=
  if method ≠ "POST" then (.code 404, [])
  else
    match body with
    | none => (.code 400, [])
    | some raw =>
      let msg0 := unmarshalRequest httpRequestDefaults raw
      let msg := { msg0 with channel := ensureTrailingSlash msg0.channel }
      let channel := s.parseChannel ("emitter/" ++ msg.channel)
      if channel.channelType = .invalid then (.code 400, [])
      else
        let auth := s.authorize channel AllowPresence
        let key := auth.2.1
        let allowed := auth.2.2
        if !allowed then (.code 401, [])
        else
          let ssid := NewSsid key.contract channel.query
          let resp : Response :=
            { time := s.now, event := EventTypeStatus, channel := msg.channel
              who := s.getAllPresence ssid }
          match s.marshalResponse resp with
          | none => (.code 500, [Effect.gather ssid])
          | some r => (.ok r, [Effect.gather ssid])

/-- `Notify` sends out an event when a client is subscribed/unsubscribed.
`encode` models `Notification.Encode`, which may fail; returns the list of
`Publish` calls made. -/
def Notify (encode : Notification → Option String) (ev : Notification)
    (filter : Nat → Bool) : List PubEffect :=
  match encode ev with
  | none => []
  | some encoded => [⟨⟨ev.ssid, "emitter/presence/", encoded⟩, filter⟩]

/-- Modelled from the spec: the status aggregation (`getAllPresence` and the
scatter-gather merge, spec section 4.5 step 5) is not among the provided
source files. Merges partial answers by keeping, in first-seen order, each
subscriber whose connection identifier was not seen before. -/
def dedupByConnId (seen : List Nat) : List Info → List Info
  | [] => []
  | i :: rest =>
    if i.id ∈ seen then dedupByConnId seen rest
    else i :: dedupByConnId (i.id :: seen) rest

/-- Modelled from the spec: merge all partial presence answers (local plus
every peer response) into one sequence and deduplicate by connection
identifier, first-seen order as tie-break. -/
def mergePresence (parts : List (List Info)) : List Info :=
  dedupByConnId [] parts.flatten

/-- The parsed channel the in-protocol path works with: credential-key
prefix, slash-normalized channel text. -/
def presenceChannelOf (s : Service) (raw : RawRequest) : Channel :=
  let msg := unmarshalRequest presenceRequestDefaults raw
  s.parseChannel (msg.key ++ "/" ++ ensureTrailingSlash msg.channel)

/-- The authorizer's answer on the in-protocol path. -/
def presenceAuthOf (s : Service) (raw : RawRequest) : Nat × Key × Bool :=
  s.authorize (presenceChannelOf s raw) AllowPresence

/-- The credential key the authorizer returns on the in-protocol path. -/
def presenceKeyOf (s : Service) (raw : RawRequest) : Key :=
  (presenceAuthOf s raw).2.1

/-- The SSID the in-protocol path derives. -/
def presenceSsidOf (s : Service) (raw : RawRequest) : Ssid :=
  NewSsid (presenceKeyOf s raw).contract (presenceChannelOf s raw).query

/-- The parsed channel the HTTP path works with: fixed service prefix,
slash-normalized channel text. -/
def httpChannelOf (s : Service) (raw : RawRequest) : Channel :=
  let msg := unmarshalRequest httpRequestDefaults raw
  s.parseChannel ("emitter/" ++ ensureTrailingSlash msg.channel)

/-- The authorizer's answer on the HTTP path. -/
def httpAuthOf (s : Service) (raw : RawRequest) : Nat × Key × Bool :=
  s.authorize (httpChannelOf s raw) AllowPresence

/-- The credential key the authorizer returns on the HTTP path. -/
def httpKeyOf (s : Service) (raw : RawRequest) : Key :=
  (httpAuthOf s raw).2.1

/-- The SSID the HTTP path derives. -/
def httpSsidOf (s : Service) (raw : RawRequest) : Ssid :=
  NewSsid (httpKeyOf s raw).contract (httpChannelOf s raw).query

/-- A connection fixture. -/
def connA : Conn := ⟨9, "alice"⟩

/-- A request-body fixture: key K1, channel room1, no flags in the JSON. -/
def rawRoom : RawRequest := ⟨some "K1", some "room1", none, none⟩

/-- Service fixture: parser accepts, key authorized for presence only. -/
def svcOk : Service :=
  { parseChannel := fun _ => ⟨.chanStatic, [7], "room1/"⟩
    authorize := fun _ _ => (1, ⟨1, [AllowPresence]⟩, true)
    getAllPresence := fun _ => [⟨5, "bob", "local"⟩]
    marshalResponse := fun _ => some "resp"
    now := 0 }

/-- Service fixture: the authorized key also carries the extend permission. -/
def svcExtendKey : Service :=
  { svcOk with authorize := fun _ _ => (1, ⟨1, [AllowPresence, AllowExtend]⟩, true) }

/-- Service fixture: parser yields an invalid channel. -/
def svcInvalid : Service :=
  { svcOk with parseChannel := fun _ => ⟨.invalid, [], ""⟩ }

/-- Service fixture: authorization denies. -/
def svcDenied : Service :=
  { svcOk with authorize := fun _ _ => (1, ⟨1, []⟩, false) }

/-- Service fixture: response marshalling fails. -/
def svcMarshalFail : Service :=
  { svcOk with marshalResponse := fun _ => none }

/-- Helper: every outcome of the in-protocol handler is either an error with
boolean false and no effects, or a non-error with boolean true. -/
theorem onPresence_shape (s : Service) (c : Conn) (p : Option RawRequest) :
    ((OnPresence s c p).1.1.isError = true ∧ (OnPresence s c p).1.2 = false ∧
      (OnPresence s c p).2 = []) ∨
    ((OnPresence s c p).1.1.isError = false ∧ (OnPresence s c p).1.2 = true) := by
  rcases p with _ | raw
  · simp [OnPresence, PresenceOut.isError]
  · simp only [OnPresence]
    repeat' split
    all_goals simp [PresenceOut.isError]

/-- C1 counterexample: on the HTTP path, a key carrying the extend capability
is not rejected with UnauthorizedExtend; the request proceeds to status
aggregation and is answered with a 200 body. -/
theorem http_extend_key_not_rejected :
    (httpKeyOf svcExtendKey rawRoom).hasPermission AllowExtend = true ∧
    OnHTTPPresence svcExtendKey "POST" (some rawRoom) =
      (.ok "resp", [Effect.gather ⟨1, [7]⟩]) := by
  constructor
  · decide
  · rfl

/-- C1 (amended): on the in-protocol path, whenever the channel parses as
valid and the authorizer allows the request but the returned key carries the
extend capability, the handler rejects with UnauthorizedExtend and performs
no effect, regardless of the key's other permissions. -/
theorem onPresence_extend_rejected (s : Service) (c : Conn) (raw : RawRequest)
    (hch : (presenceChannelOf s raw).channelType ≠ .invalid)
    (hal : (presenceAuthOf s raw).2.2 = true)
    (hext : (presenceKeyOf s raw).hasPermission AllowExtend = true) :
    OnPresence s c (some raw) = ((.errUnauthorizedExt, false), []) := by
  simp only [presenceChannelOf, presenceAuthOf, presenceKeyOf] at hch hal hext
  simp [OnPresence, hch, hal, hext]

/-- C1 witness: the amended theorem applied to a concrete extend-carrying
key on the in-protocol path. -/
theorem onPresence_extend_rejected_witness :
    OnPresence svcExtendKey connA (some rawRoom) = ((.errUnauthorizedExt, false), []) :=
  onPresence_extend_rejected svcExtendKey connA rawRoom (by decide) (by decide) (by decide)

/-- C3 counterexample: on a malformed payload, the in-protocol handler
returns false as its boolean, not the always-true keep-open signal the claim
states. -/
theorem onPresence_malformed_bool_false :
    (OnPresence svcOk connA none).1.2 = false := rfl

/-- C3 (amended): the boolean returned by the in-protocol handler is a
success indicator — true exactly when the outcome is not a protocol error,
false alongside every error outcome (including malformed payload). -/
theorem onPresence_bool_iff_no_error (s : Service) (c : Conn) (p : Option RawRequest) :
    (OnPresence s c p).1.2 = !(OnPresence s c p).1.1.isError := by
  rcases onPresence_shape s c p with ⟨h1, h2, _⟩ | ⟨h1, h2⟩ <;> rw [h1, h2] <;> rfl

/-- C10: whenever the in-protocol handler returns an error outcome (bad
request, unauthorized, or unauthorized-extend), its effect trace is empty: no
Subscribe or Unsubscribe reaches the bus and no aggregation is performed. -/
theorem onPresence_error_no_effects (s : Service) (c : Conn) (p : Option RawRequest)
    (h : (OnPresence s c p).1.1.isError = true) :
    (OnPresence s c p).2 = [] := by
  rcases onPresence_shape s c p with ⟨_, _, h3⟩ | ⟨h1, _⟩
  · exact h3
  · rw [h1] at h; cases h

/-- C10 witness: a concrete unauthorized request produces no effects. -/
theorem onPresence_error_no_effects_witness :
    (OnPresence svcDenied connA (some rawRoom)).1.1.isError = true ∧
    (OnPresence svcDenied connA (some rawRoom)).2 = [] :=
  ⟨by decide, onPresence_error_no_effects svcDenied connA (some rawRoom) (by decide)⟩

/-- The status response the HTTP path builds and marshals. -/
def httpResponseOf (s : Service) (raw : RawRequest) : Response :=
  { time := s.now
    event := EventTypeStatus
    channel := ensureTrailingSlash (unmarshalRequest httpRequestDefaults raw).channel
    who := s.getAllPresence (httpSsidOf s raw) }

/-- C4: the HTTP presence endpoint's status codes — 404 on a non-POST
method, 400 on a body that fails to decode or a channel that parses invalid,
401 on an authorization failure, 500 on a response-encoding failure, and
otherwise a 200 reply carrying the encoded JSON body. -/
theorem onHTTPPresence_status_codes (s : Service) (method : String) (body : Option RawRequest) :
    (method ≠ "POST" → OnHTTPPresence s method body = (.code 404, [])) ∧
    (method = "POST" → body = none → OnHTTPPresence s method body = (.code 400, [])) ∧
    (∀ raw, method = "POST" → body = some raw →
      (httpChannelOf s raw).channelType = .invalid →
      OnHTTPPresence s method body = (.code 400, [])) ∧
    (∀ raw, method = "POST" → body = some raw →
      (httpChannelOf s raw).channelType ≠ .invalid →
      (httpAuthOf s raw).2.2 = false →
      OnHTTPPresence s method body = (.code 401, [])) ∧
    (∀ raw, method = "POST" → body = some raw →
      (httpChannelOf s raw).channelType ≠ .invalid →
      (httpAuthOf s raw).2.2 = true →
      s.marshalResponse (httpResponseOf s raw) = none →
      (OnHTTPPresence s method body).1 = .code 500) ∧
    (∀ raw r, method = "POST" → body = some raw →
      (httpChannelOf s raw).channelType ≠ .invalid →
      (httpAuthOf s raw).2.2 = true →
      s.marshalResponse (httpResponseOf s raw) = some r →
      (OnHTTPPresence s method body).1 = .ok r ∧
      (OnHTTPPresence s method body).1.statusCode = 200) := by
  refine ⟨?_, ?_, ?_, ?_, ?_, ?_⟩
  · intro hm
    simp [OnHTTPPresence, hm]
  · rintro rfl rfl
    simp [OnHTTPPresence]
  · rintro raw rfl rfl hch
    simp only [httpChannelOf] at hch
    simp [OnHTTPPresence, hch]
  · rintro raw rfl rfl hch hal
    simp only [httpChannelOf, httpAuthOf] at hch hal
    simp [OnHTTPPresence, hch, hal]
  · rintro raw rfl rfl hch hal hmr
    simp only [httpChannelOf, httpAuthOf] at hch hal
    simp only [httpResponseOf, httpSsidOf, httpKeyOf, httpAuthOf, httpChannelOf] at hmr
    simp [OnHTTPPresence, hch, hal, hmr]
  · rintro raw r rfl rfl hch hal hmr
    simp only [httpChannelOf, httpAuthOf] at hch hal
    simp only [httpResponseOf, httpSsidOf, httpKeyOf, httpAuthOf, httpChannelOf] at hmr
    simp [OnHTTPPresence, HttpOut.statusCode, hch, hal, hmr]

/-- C4 witness: each HTTP status-code branch exercised on a concrete
request. -/
theorem onHTTPPresence_status_codes_witness :
    OnHTTPPresence svcOk "GET" (some rawRoom) = (.code 404, []) ∧
    OnHTTPPresence svcOk "POST" none = (.code 400, []) ∧
    OnHTTPPresence svcInvalid "POST" (some rawRoom) = (.code 400, []) ∧
    OnHTTPPresence svcDenied "POST" (some rawRoom) = (.code 401, []) ∧
    (OnHTTPPresence svcMarshalFail "POST" (some rawRoom)).1 = .code 500 ∧
    (OnHTTPPresence svcOk "POST" (some rawRoom)).1 = .ok "resp" :=
  ⟨(onHTTPPresence_status_codes svcOk "GET" (some rawRoom)).1 (by decide),
   (onHTTPPresence_status_codes svcOk "POST" none).2.1 rfl rfl,
   (onHTTPPresence_status_codes svcInvalid "POST" (some rawRoom)).2.2.1 rawRoom rfl rfl (by decide),
   (onHTTPPresence_status_codes svcDenied "POST" (some rawRoom)).2.2.2.1 rawRoom rfl rfl
     (by decide) (by decide),
   (onHTTPPresence_status_codes svcMarshalFail "POST" (some rawRoom)).2.2.2.2.1 rawRoom rfl rfl
     (by decide) (by decide) rfl,
   ((onHTTPPresence_status_codes svcOk "POST" (some rawRoom)).2.2.2.2.2 rawRoom "resp" rfl rfl
     (by decide) (by decide) rfl).1⟩

/-- The subscription event the in-protocol path builds: requester's
connection identity and username, presence-class SSID, channel text. -/
def presenceEventOf (s : Service) (c : Conn) (raw : RawRequest) : Subscription :=
  { conn := c.localId
    user := c.username
    ssid := NewSsidForPresence (presenceSsidOf s raw)
    channel := (presenceChannelOf s raw).channel }

/-- C5: on the in-protocol path, for an authorized request the want-changes
flag drives the bus registration — unset yields no Subscribe or Unsubscribe
call, true yields exactly one Subscribe with the presence-class subscription
event, false yields exactly one Unsubscribe with the same event. -/
theorem onPresence_changes_subscription (s : Service) (c : Conn) (raw : RawRequest)
    (hch : (presenceChannelOf s raw).channelType ≠ .invalid)
    (hal : (presenceAuthOf s raw).2.2 = true)
    (hext : (presenceKeyOf s raw).hasPermission AllowExtend = false) :
    ((unmarshalRequest presenceRequestDefaults raw).changes = none →
      (OnPresence s c (some raw)).2.filter Effect.isSubEvent = []) ∧
    ((unmarshalRequest presenceRequestDefaults raw).changes = some true →
      (OnPresence s c (some raw)).2.filter Effect.isSubEvent =
        [Effect.subscribe c (presenceEventOf s c raw)]) ∧
    ((unmarshalRequest presenceRequestDefaults raw).changes = some false →
      (OnPresence s c (some raw)).2.filter Effect.isSubEvent =
        [Effect.unsubscribe c (presenceEventOf s c raw)]) := by
  simp only [presenceChannelOf, presenceAuthOf, presenceKeyOf] at hch hal hext
  refine ⟨?_, ?_, ?_⟩ <;> intro hc <;>
    simp only [OnPresence, presenceEventOf, presenceSsidOf, presenceKeyOf, presenceAuthOf,
      presenceChannelOf] <;>
    simp [hch, hal, hext, hc, Effect.isSubEvent] <;>
    split <;>
    simp [Effect.isSubEvent]

/-- C5 witness: the three flag values on a concrete authorized request. -/
theorem onPresence_changes_subscription_witness :
    (OnPresence svcOk connA (some rawRoom)).2.filter Effect.isSubEvent = [] ∧
    (OnPresence svcOk connA (some ⟨some "K1", some "room1", none, some (some true)⟩)).2.filter
        Effect.isSubEvent =
      [Effect.subscribe connA
        (presenceEventOf svcOk connA ⟨some "K1", some "room1", none, some (some true)⟩)] ∧
    (OnPresence svcOk connA (some ⟨some "K1", some "room1", none, some (some false)⟩)).2.filter
        Effect.isSubEvent =
      [Effect.unsubscribe connA
        (presenceEventOf svcOk connA ⟨some "K1", some "room1", none, some (some false)⟩)] :=
  ⟨(onPresence_changes_subscription svcOk connA rawRoom (by decide) (by decide) (by decide)).1
      rfl,
   (onPresence_changes_subscription svcOk connA ⟨some "K1", some "room1", none, some (some true)⟩
      (by decide) (by decide) (by decide)).2.1 rfl,
   (onPresence_changes_subscription svcOk connA ⟨some "K1", some "room1", none, some (some false)⟩
      (by decide) (by decide) (by decide)).2.2 rfl⟩

/-- The status response the in-protocol path builds. -/
def presenceResponseOf (s : Service) (raw : RawRequest) : Response :=
  { time := s.now
    event := EventTypeStatus
    channel := ensureTrailingSlash (unmarshalRequest presenceRequestDefaults raw).channel
    who := s.getAllPresence (presenceSsidOf s raw) }

/-- C6: on the in-protocol path, for an authorized request the status flag
(default true when absent from the payload) decides the reply — true yields a
Response with event kind "status", the slash-normalized channel text, the
service clock's UTC-seconds timestamp and the aggregated subscriber list;
false yields no response object. -/
theorem onPresence_status_response (s : Service) (c : Conn) (raw : RawRequest)
    (hch : (presenceChannelOf s raw).channelType ≠ .invalid)
    (hal : (presenceAuthOf s raw).2.2 = true)
    (hext : (presenceKeyOf s raw).hasPermission AllowExtend = false) :
    (raw.status = none → (unmarshalRequest presenceRequestDefaults raw).status = true) ∧
    ((unmarshalRequest presenceRequestDefaults raw).status = true →
      (OnPresence s c (some raw)).1.1 = .response (presenceResponseOf s raw) ∧
      (presenceResponseOf s raw).event = EventTypeStatus ∧
      (presenceResponseOf s raw).time = s.now ∧
      (presenceResponseOf s raw).channel =
        ensureTrailingSlash (unmarshalRequest presenceRequestDefaults raw).channel ∧
      (presenceResponseOf s raw).who = s.getAllPresence (presenceSsidOf s raw)) ∧
    ((unmarshalRequest presenceRequestDefaults raw).status = false →
      (OnPresence s c (some raw)).1.1 = .noResponse) := by
  simp only [presenceChannelOf, presenceAuthOf, presenceKeyOf] at hch hal hext
  refine ⟨?_, ?_, ?_⟩
  · intro hs
    simp [unmarshalRequest, presenceRequestDefaults, hs]
  · intro hst
    refine ⟨?_, rfl, rfl, rfl, rfl⟩
    simp only [presenceResponseOf, presenceSsidOf, presenceKeyOf, presenceAuthOf,
      presenceChannelOf]
    simp [OnPresence, hch, hal, hext, hst]
  · intro hst
    simp [OnPresence, hch, hal, hext, hst]

/-- C6 witness: a concrete request without a status field yields the status
response; one with status false yields no response object. -/
theorem onPresence_status_response_witness :
    (OnPresence svcOk connA (some rawRoom)).1.1 = .response (presenceResponseOf svcOk rawRoom) ∧
    (OnPresence svcOk connA (some ⟨some "K1", some "room1", some false, none⟩)).1.1 =
      .noResponse :=
  ⟨((onPresence_status_response svcOk connA rawRoom (by decide) (by decide) (by decide)).2.1
      rfl).1,
   (onPresence_status_response svcOk connA ⟨some "K1", some "room1", some false, none⟩
      (by decide) (by decide) (by decide)).2.2 rfl⟩

/-- C7: trailing-slash normalization appends exactly one slash when absent
and leaves a slash-terminated string unchanged; on both paths, a request
whose slash-normalized channel parses as invalid is rejected whole (protocol
BadRequest, HTTP 400) with no effects and no default substituted, while a
request whose channel parses as a valid static or wildcard topic is never
answered with that rejection. -/
theorem channel_normalization_invalid_rejection :
    (∀ t : String, hasSuffix t "/" = false → ensureTrailingSlash t = t ++ "/") ∧
    (∀ t : String, hasSuffix t "/" = true → ensureTrailingSlash t = t) ∧
    (∀ s c raw, (presenceChannelOf s raw).channelType = .invalid →
      OnPresence s c (some raw) = ((.errBadRequest, false), [])) ∧
    (∀ s c raw, (presenceChannelOf s raw).channelType ≠ .invalid →
      (OnPresence s c (some raw)).1.1 ≠ .errBadRequest) ∧
    (∀ s raw, (httpChannelOf s raw).channelType = .invalid →
      OnHTTPPresence s "POST" (some raw) = (.code 400, [])) ∧
    (∀ s raw, (httpChannelOf s raw).channelType ≠ .invalid →
      (OnHTTPPresence s "POST" (some raw)).1 ≠ .code 400) := by
  refine ⟨?_, ?_, ?_, ?_, ?_, ?_⟩
  · intro t ht
    simp [ensureTrailingSlash, ht]
  · intro t ht
    simp [ensureTrailingSlash, ht]
  · intro s c raw hch
    simp only [presenceChannelOf] at hch
    simp [OnPresence, hch]
  · intro s c raw hch
    simp only [presenceChannelOf] at hch
    simp only [OnPresence, hch]
    repeat' split
    all_goals simp_all
  · intro s raw hch
    simp only [httpChannelOf] at hch
    simp [OnHTTPPresence, hch]
  · intro s raw hch
    simp only [httpChannelOf] at hch
    simp only [OnHTTPPresence, hch]
    repeat' split
    all_goals simp_all

/-- C7 witness: concrete normalization facts and a concrete rejected and
accepted request on each path. -/
theorem channel_normalization_invalid_rejection_witness :
    ensureTrailingSlash "room1" = "room1" ++ "/" ∧
    ensureTrailingSlash "room1/" = "room1/" ∧
    OnPresence svcInvalid connA (some rawRoom) = ((.errBadRequest, false), []) ∧
    (OnPresence svcOk connA (some rawRoom)).1.1 ≠ .errBadRequest ∧
    OnHTTPPresence svcInvalid "POST" (some rawRoom) = (.code 400, []) ∧
    (OnHTTPPresence svcOk "POST" (some rawRoom)).1 ≠ .code 400 :=
  ⟨channel_normalization_invalid_rejection.1 "room1" (by decide),
   channel_normalization_invalid_rejection.2.1 "room1/" (by decide),
   channel_normalization_invalid_rejection.2.2.1 svcInvalid connA rawRoom (by decide),
   channel_normalization_invalid_rejection.2.2.2.1 svcOk connA rawRoom (by decide),
   channel_normalization_invalid_rejection.2.2.2.2.1 svcInvalid rawRoom (by decide),
   channel_normalization_invalid_rejection.2.2.2.2.2 svcOk rawRoom (by decide)⟩

/-- C8: the HTTP path never emits a Subscribe or Unsubscribe effect on any
input, and every successful (200) reply is the marshalled status aggregation
for the derived SSID, the aggregation being the only effect. -/
theorem onHTTPPresence_no_subscription_effects (s : Service) (method : String)
    (body : Option RawRequest) :
    (∀ e ∈ (OnHTTPPresence s method body).2, e.isSubEvent = false) ∧
    (∀ raw r, body = some raw → (OnHTTPPresence s method body).1 = .ok r →
      (OnHTTPPresence s method body).2 = [Effect.gather (httpSsidOf s raw)] ∧
      s.marshalResponse (httpResponseOf s raw) = some r) := by
  constructor
  · intro e he
    simp only [OnHTTPPresence] at he
    split at he
    · simp at he
    · split at he
      · simp at he
      · split at he
        · simp at he
        · split at he
          · simp at he
          · split at he <;> simp at he <;> rw [he] <;> rfl
  · rintro raw r rfl hok
    simp only [OnHTTPPresence, httpSsidOf, httpKeyOf, httpAuthOf, httpChannelOf,
      httpResponseOf] at hok ⊢
    split at hok
    · cases hok
    · split at hok
      · cases hok
      · split at hok
        · cases hok
        · split at hok
          · cases hok
          · rename_i hmr2
            injection hok with hval
            subst hval
            simp_all

/-- C8 witness: a concrete HTTP request with a changes flag set in the body
still produces no subscription effect and is answered with the
aggregation. -/
theorem onHTTPPresence_no_subscription_effects_witness :
    (∀ e ∈ (OnHTTPPresence svcOk "POST"
        (some ⟨some "K1", some "room1", none, some (some true)⟩)).2,
      e.isSubEvent = false) ∧
    (OnHTTPPresence svcOk "POST" (some ⟨some "K1", some "room1", none, some (some true)⟩)).2 =
      [Effect.gather (httpSsidOf svcOk ⟨some "K1", some "room1", none, some (some true)⟩)] :=
  ⟨(onHTTPPresence_no_subscription_effects svcOk "POST"
      (some ⟨some "K1", some "room1", none, some (some true)⟩)).1,
   ((onHTTPPresence_no_subscription_effects svcOk "POST"
      (some ⟨some "K1", some "room1", none, some (some true)⟩)).2
      ⟨some "K1", some "room1", none, some (some true)⟩ "resp" rfl rfl).1⟩

/-- C9: when encoding a presence notification fails, Notify publishes
nothing; when it succeeds, Notify publishes exactly one message with the
encoded payload to the fixed channel "emitter/presence/" under the
caller-supplied recipient filter. -/
theorem notify_encode_behavior (encode : Notification → Option String) (ev : Notification)
    (filter : Nat → Bool) :
    (encode ev = none → Notify encode ev filter = []) ∧
    (∀ pl, encode ev = some pl →
      Notify encode ev filter = [⟨⟨ev.ssid, "emitter/presence/", pl⟩, filter⟩]) := by
  constructor
  · intro h
    simp [Notify, h]
  · intro pl h
    simp [Notify, h]

/-- A notification fixture. -/
def notifEx : Notification := ⟨"subscribe", ⟨1, [7]⟩, "room1/", 9, "alice"⟩

/-- C9 witness: a failing and a succeeding encoder on a concrete event. -/
theorem notify_encode_behavior_witness :
    Notify (fun _ => none) notifEx (fun _ => true) = [] ∧
    Notify (fun _ => some "enc") notifEx (fun _ => true) =
      [⟨⟨⟨1, [7]⟩, "emitter/presence/", "enc"⟩, fun _ => true⟩] :=
  ⟨(notify_encode_behavior (fun _ => none) notifEx (fun _ => true)).1 rfl,
   (notify_encode_behavior (fun _ => some "enc") notifEx (fun _ => true)).2 "enc" rfl⟩

/-- Helper: a connection identifier appears in the deduplicated list iff it
was not already seen and appears in the input. -/
theorem dedupByConnId_mem (l : List Info) (seen : List Nat) (n : Nat) :
    n ∈ (dedupByConnId seen l).map Info.id ↔ n ∉ seen ∧ n ∈ l.map Info.id := by
  induction l generalizing seen with
  | nil => simp [dedupByConnId]
  | cons i rest ih =>
    by_cases hmem : i.id ∈ seen
    · simp only [dedupByConnId, if_pos hmem, ih, List.map_cons, List.mem_cons]
      constructor
      · rintro ⟨h1, h2⟩
        exact ⟨h1, Or.inr h2⟩
      · rintro ⟨h1, h2 | h2⟩
        · exact absurd (h2 ▸ hmem) h1
        · exact ⟨h1, h2⟩
    · simp only [dedupByConnId, if_neg hmem, List.map_cons, List.mem_cons, ih, not_or]
      constructor
      · rintro (rfl | ⟨⟨hne, hns⟩, hr⟩)
        · exact ⟨hmem, Or.inl rfl⟩
        · exact ⟨hns, Or.inr hr⟩
      · rintro ⟨hns, rfl | hr⟩
        · exact Or.inl rfl
        · by_cases hne : n = i.id
          · exact Or.inl hne
          · exact Or.inr ⟨⟨hne, hns⟩, hr⟩

/-- Helper: deduplication by connection identifier leaves no duplicate
identifiers. -/
theorem dedupByConnId_nodup (l : List Info) (seen : List Nat) :
    ((dedupByConnId seen l).map Info.id).Nodup := by
  induction l generalizing seen with
  | nil => simp [dedupByConnId]
  | cons i rest ih =>
    by_cases hmem : i.id ∈ seen
    · simpa [dedupByConnId, hmem] using ih seen
    · simp only [dedupByConnId, if_neg hmem, List.map_cons, List.nodup_cons]
      refine ⟨fun hc => ?_, ih _⟩
      rw [dedupByConnId_mem] at hc
      exact hc.1 (List.mem_cons_self _ _)

/-- Helper: deduplication keeps a subsequence of the input, so the first-seen
order of the merged sequence is preserved. -/
theorem dedupByConnId_sublist (l : List Info) (seen : List Nat) :
    (dedupByConnId seen l).Sublist l := by
  induction l generalizing seen with
  | nil => simp [dedupByConnId]
  | cons i rest ih =>
    by_cases hmem : i.id ∈ seen
    · simp only [dedupByConnId, if_pos hmem]
      exact (ih seen).cons i
    · simp only [dedupByConnId, if_neg hmem]
      exact (ih _).cons₂ i

/-- C2: merging partial presence answers deduplicates by connection
identifier — an identifier appears at most once in the final list, it
appears iff some partial answer contains it, any arrival order of the same
partial answers yields the same set of identifiers, and the final list is a
subsequence of the concatenated answers (first-seen order). -/
theorem mergePresence_dedup_order_insensitive (parts other : List (List Info))
    (h : parts.Perm other) :
    ((mergePresence parts).map Info.id).Nodup ∧
    (∀ n, n ∈ (mergePresence parts).map Info.id ↔
      ∃ part ∈ parts, n ∈ part.map Info.id) ∧
    (∀ n, n ∈ (mergePresence parts).map Info.id ↔
      n ∈ (mergePresence other).map Info.id) ∧
    (mergePresence parts).Sublist parts.flatten := by
  refine ⟨dedupByConnId_nodup _ _, ?_, ?_, dedupByConnId_sublist _ _⟩
  · intro n
    rw [mergePresence, dedupByConnId_mem]
    simp only [List.not_mem_nil, not_false_iff, true_and, List.mem_map, List.mem_flatten]
    constructor
    · rintro ⟨i, ⟨part, hp, hi⟩, hn⟩
      exact ⟨part, hp, i, hi, hn⟩
    · rintro ⟨part, hp, i, hi, hn⟩
      exact ⟨i, ⟨part, hp, hi⟩, hn⟩
  · intro n
    rw [mergePresence, mergePresence, dedupByConnId_mem, dedupByConnId_mem]
    simp only [List.not_mem_nil, not_false_iff, true_and, List.mem_map, List.mem_flatten]
    constructor
    · rintro ⟨i, ⟨part, hp, hi⟩, hn⟩
      exact ⟨i, ⟨part, h.mem_iff.mp hp, hi⟩, hn⟩
    · rintro ⟨i, ⟨part, hp, hi⟩, hn⟩
      exact ⟨i, ⟨part, h.mem_iff.mpr hp, hi⟩, hn⟩

/-- Subscriber fixtures for the aggregation witness. -/
def infoA : Info := ⟨1, "a", "n1"⟩

/-- Second subscriber fixture. -/
def infoB : Info := ⟨2, "b", "n2"⟩

/-- C2 witness: two concrete partial answers sharing a subscriber, merged in
both arrival orders. -/
theorem mergePresence_dedup_order_insensitive_witness :
    ((mergePresence [[infoA], [infoB, infoA]]).map Info.id).Nodup ∧
    (1 ∈ (mergePresence [[infoA], [infoB, infoA]]).map Info.id ↔
      ∃ part ∈ [[infoA], [infoB, infoA]], 1 ∈ part.map Info.id) ∧
    (2 ∈ (mergePresence [[infoA], [infoB, infoA]]).map Info.id ↔
      2 ∈ (mergePresence [[infoB, infoA], [infoA]]).map Info.id) ∧
    (mergePresence [[infoA], [infoB, infoA]]).Sublist ([[infoA], [infoB, infoA]] : List (List Info)).flatten :=
  have ht := mergePresence_dedup_order_insensitive [[infoA], [infoB, infoA]]
    [[infoB, infoA], [infoA]] (by decide)
  ⟨ht.1, ht.2.1 1, ht.2.2.1 2, ht.2.2.2⟩

end Emitter
